import Mathlib

/-!
Shallow embedding of the transport-layer utilities of `iroh-gossip`
(`src/iroh-gossip/src/net/util.rs`): length-prefixed message framing
(`read_lp`, `read_message`, `write_message`), the `Dialer` bookkeeping for
concurrent outbound connection attempts, and the `Timers` deadline
multiplexer.

Byte streams are modelled as `List Nat` (each element a byte value).  The
async chunking of the underlying reader does not affect any of the verified
properties: tokio's `read_u32` either consumes exactly four bytes or fails
with `UnexpectedEof` (for zero as well as one-to-three available bytes), and
the `take`-limited `read_buf` loop accumulates exactly
`min size remaining` fresh bytes before the loop's `r == 0` break fires, so
both are modelled as total functions of the remaining stream.
-/

/-- tokio `AsyncReadExt::read_u32`: consumes exactly four bytes and decodes
them big-endian; if the stream ends before four bytes are available (whether
zero or one-to-three bytes remain) it fails with `UnexpectedEof`, modelled
as `none`. -/
def readU32 : List Nat → Option (Nat × List Nat)
  | a :: b :: c :: d :: rest => some (((a * 256 + b) * 256 + c) * 256 + d, rest)
  | _ => none

/-- Result of `read_lp`: `ok value buffer rest` carries the returned
`Option<Bytes>`, the scratch buffer left for the next call, and the
unconsumed remainder of the stream; `err buffer rest` is the `bail!` path
(nothing of the payload consumed); `panicked` is the `BytesMut::split_to`
panic when the declared size exceeds the accumulated buffer length. -/
inductive LpResult where
  | ok : Option (List Nat) → List Nat → List Nat → LpResult
  | err : List Nat → List Nat → LpResult
  | panicked : LpResult
deriving DecidableEq, Repr

/-- The predicate `LpResult.isErr` is true exactly on the `bail!` outcome. -/
def LpResult.isErr : LpResult → Bool
  | LpResult.err _ _ => true
  | _ => false

/-- Model of `read_lp(reader, buffer)` from `src/iroh-gossip/src/net/util.rs`:
reads a 4-byte length prefix (`UnexpectedEof` is mapped to `Ok(None)`),
bails when the declared size is strictly greater than `max`
(`MAX_MESSAGE_SIZE`, a protocol constant whose definition is outside this
crate's sources and is therefore kept as a parameter), then accumulates at
most `size` fresh bytes from the stream into the persistent buffer via the
`take(size)`-limited `read_buf` loop, and finally returns
`buffer.split_to(size)` — which panics when `size > buffer.len()`. -/
def read_lp (max : Nat) (s : List Nat) (buffer : List Nat) : LpResult :=
  match readU32 s with
  | none => LpResult.ok none buffer s
  | some (size, rest) =>
    if max < size then LpResult.err buffer rest
    else
      let got := min size rest.length
      let buffer' := buffer ++ rest.take got
      let rest' := rest.drop got
      if size ≤ buffer'.length then
        LpResult.ok (some (buffer'.take size)) (buffer'.drop size) rest'
      else LpResult.panicked

/-- Result of `read_message`: the decoded message (or `none` at clean end of
stream) plus the buffer and stream remainder, or the error / panic outcome
inherited from `read_lp` (a postcard decode failure is also `err`). -/
inductive MsgResult (M : Type) where
  | ok : Option M → List Nat → List Nat → MsgResult M
  | err : MsgResult M
  | panicked : MsgResult M
deriving DecidableEq, Repr

/-- Model of `read_message(reader, buffer)`: `read_lp` followed by postcard decoding
of the returned frame.  The postcard codec is external to the sources, so
it is a parameter `deser`. -/
def read_message {M : Type} (max : Nat) (deser : List Nat → Option M)
    (s buffer : List Nat) : MsgResult M :=
  match read_lp max s buffer with
  | LpResult.ok none b r => MsgResult.ok none b r
  | LpResult.ok (some data) b r =>
      match deser data with
      | some m => MsgResult.ok (some m) b r
      | none => MsgResult.err
  | LpResult.err _ _ => MsgResult.err
  | LpResult.panicked => MsgResult.panicked

/-- Model of `BytesMut::clear`: drops the whole content. -/
def bufClear (_ : List Nat) : List Nat := []

/-- Model of `BytesMut::resize(n, v)`: truncates to `n` bytes or pads with `v`. -/
def bufResize (b : List Nat) (n : Nat) (v : Nat) : List Nat :=
  if n ≤ b.length then b.take n else b ++ List.replicate (n - b.length) v

/-- Model of `postcard::to_slice(frame, buffer)`: writes the serialized bytes over
the front of the buffer and returns the written slice, failing when the
buffer is too small. -/
def toSlice (payload : List Nat) (b : List Nat) : Option (List Nat × List Nat) :=
  if payload.length ≤ b.length then some (payload, payload ++ b.drop payload.length)
  else none

/-- Big-endian 4-byte encoding used by `write_u32(len as u32)`; the `% 256`
on each digit makes the `as u32` truncation explicit. -/
def u32be (k : Nat) : List Nat :=
  [k / 16777216 % 256, k / 65536 % 256, k / 256 % 256, k % 256]

/-- Outcome of `write_message`: whether it returned `Ok`, the bytes issued
to the stream, and the final state of the caller's scratch buffer. -/
structure WriteResult where
  ok : Bool
  written : List Nat
  buffer : List Nat
deriving DecidableEq, Repr

/-- Model of `write_message(writer, buffer, frame)`: computes the postcard
serialized size, `ensure!(len < MAX_MESSAGE_SIZE)` before touching the
buffer or the stream, then clears and resizes the scratch buffer, encodes
into it with `to_slice`, and writes the 4-byte big-endian length prefix
followed by the payload.  Serialization (`ser`) is the external postcard
codec. -/
def write_message {M : Type} (max : Nat) (ser : M → List Nat) (m : M)
    (buffer : List Nat) : WriteResult :=
  let len := (ser m).length
  if len < max then
    let b1 := bufResize (bufClear buffer) len 0
    match toSlice (ser m) b1 with
    | some (slice, b2) => { ok := true, written := u32be len ++ slice, buffer := b2 }
    | none => { ok := false, written := [], buffer := b1 }
  else { ok := false, written := [], buffer := buffer }

/-- Decoding inverts the 4-byte big-endian encoding below `2^32`. -/
theorem readU32_u32be (k : Nat) (t : List Nat) (h : k < 4294967296) :
    readU32 (u32be k ++ t) = some (k, t) := by
  simp only [u32be, readU32, List.cons_append, List.nil_append,
    Option.some.injEq, Prod.mk.injEq]
  exact ⟨by omega, trivial⟩

/-!
## Dialer

`Dialer` keeps a `FuturesUnordered` of in-flight connection attempts
(`pending`) plus a `HashMap<PeerId, CancellationToken>` (`pending_peers`).
Peer identifiers are modelled as `Nat`; each `CancellationToken` is
identified by a fresh `Nat` so that distinct tokens for the same peer are
distinguishable.  Which attempt of the `FuturesUnordered` completes first
is scheduler-dependent, so `Dialer.next` takes the index of the completing
attempt as a parameter.
-/

/-- One in-flight attempt of the `FuturesUnordered`: the peer it dials, the
alpn protocol tag it was queued with, the identity of the cancellation
token it races against, and whether that token has been cancelled. -/
structure Attempt where
  peer : Nat
  alpn : Nat
  token : Nat
  cancelled : Bool
deriving DecidableEq, Repr

/-- State of `Dialer`: the attempt set, the peer-keyed map of cancellation
tokens (an association list — the invariant keeps at most one entry per
key, matching `HashMap`), and a counter producing fresh token identities. -/
structure Dialer where
  pending : List Attempt
  pending_peers : List (Nat × Nat)
  nextToken : Nat
deriving DecidableEq, Repr

/-- Model of `HashMap::get` on the association list: the token recorded for
peer `p`, if any. -/
def lookupKey (p : Nat) : List (Nat × Nat) → Option Nat
  | [] => none
  | e :: es => if e.1 == p then some e.2 else lookupKey p es

/-- Model of `HashMap::remove` on the association list: erase the entry for `p`. -/
def removeKey (p : Nat) (l : List (Nat × Nat)) : List (Nat × Nat) :=
  l.eraseP (fun e => e.1 == p)

/-- Model of `Dialer::new`. -/
def Dialer.new : Dialer := { pending := [], pending_peers := [], nextToken := 0 }

/-- Model of `Dialer::is_pending`. -/
def Dialer.is_pending (p : Nat) (s : Dialer) : Bool :=
  (lookupKey p s.pending_peers).isSome

/-- Model of `Dialer::queue_dial`: no-op when the peer is already pending; otherwise
create a fresh cancellation token, record it under the peer, and push onto
the attempt set a future racing the connect against that token. -/
def Dialer.queue_dial (p : Nat) (alpn : Nat) (s : Dialer) : Dialer :=
  if s.is_pending p then s
  else
    { pending := s.pending ++ [{ peer := p, alpn := alpn, token := s.nextToken, cancelled := false }]
      pending_peers := (p, s.nextToken) :: s.pending_peers
      nextToken := s.nextToken + 1 }

/-- Model of `Dialer::abort_dial`: remove the peer's entry from `pending_peers` and
cancel its token; the attempt itself stays in the attempt set, now racing a
cancelled token (hence resolving immediately with a cancellation error). -/
def Dialer.abort_dial (p : Nat) (s : Dialer) : Dialer :=
  match lookupKey p s.pending_peers with
  | none => s
  | some tok =>
    { pending := s.pending.map (fun a => if a.token == tok then { a with cancelled := true } else a)
      pending_peers := removeKey p s.pending_peers
      nextToken := s.nextToken }

/-- Model of `Dialer::next`: when `pending_peers` is non-empty, await the attempt
set; the attempt at index `i` (chosen by the scheduler among the in-flight
futures) resolves first, is removed, and its peer's entry is removed from
`pending_peers` **by peer id alone**.  `none` models the suspend-forever
branch (and an out-of-range index). -/
def Dialer.next (s : Dialer) (i : Nat) : Option (Nat × Dialer) :=
  if s.pending_peers.isEmpty then none
  else
    match s.pending[i]? with
    | none => none
    | some a =>
      some (a.peer,
        { pending := s.pending.eraseIdx i
          pending_peers := removeKey a.peer s.pending_peers
          nextToken := s.nextToken })

/-!
## Timers

`Timers<T>` wraps a `TimerMap<T>` (from `crate::proto::util`, outside these
sources) together with a cached earliest wake: `next = Some((instant,
sleep_until(instant)))`.  Real time is abstracted away: awaiting the cached
sleep always eventually completes, and the drained batch depends only on
the cached instant, so `wait_and_drain` is a state transformer returning
`none` exactly on the suspend-forever branch.  Instants are `Nat`. -/

/-- Modelled from the spec: `TimerMap<T>` (`crate::proto::util`) is not
under the provided sources.  Per the spec it is a sorted map from deadline
to the payloads scheduled at that deadline, here flattened to an
insertion-sorted association list: `insert` keeps ascending deadline order
(entries with equal deadlines all retained), `first` is the earliest entry,
and `drain_until i` removes and returns every entry with deadline `≤ i`. -/
abbrev TimerMap (T : Type) : Type := List (Nat × T)

/-- Modelled from the spec: `TimerMap::insert` places the new entry before
the first strictly later deadline, after all entries with deadlines `≤` its
own. -/
def TimerMap.insert {T : Type} (t : Nat) (x : T) : TimerMap T → TimerMap T
  | [] => [(t, x)]
  | (u, y) :: rest =>
    if t < u then (t, x) :: (u, y) :: rest else (u, y) :: TimerMap.insert t x rest

/-- Modelled from the spec: `TimerMap::first`, the entry with the earliest
deadline. -/
def TimerMap.first {T : Type} (m : TimerMap T) : Option (Nat × T) := m.head?

/-- Modelled from the spec: `TimerMap::drain_until i` splits off and
returns every entry whose deadline is `≤ i`. -/
def TimerMap.drain_until {T : Type} (i : Nat) (m : TimerMap T) :
    List (Nat × T) × TimerMap T :=
  (m.takeWhile (fun e => e.1 ≤ i), m.dropWhile (fun e => e.1 ≤ i))

/-- State of `Timers<T>`: the cached earliest wake (`next`, the instant of
the pinned `sleep_until`) and the deadline map. -/
structure Timers (T : Type) where
  next : Option Nat
  map : TimerMap T

/-- Model of `Timers::new`. -/
def Timers.new {T : Type} : Timers T := { next := none, map := [] }

/-- Model of `Timers::reset`: recompute the cached wake from the earliest entry of
the map. -/
def Timers.reset {T : Type} (s : Timers T) : Timers T :=
  { s with next := (TimerMap.first s.map).map (fun e => e.1) }

/-- Model of `Timers::insert`: add the entry to the map, then `reset`. -/
def Timers.insert {T : Type} (t : Nat) (x : T) (s : Timers T) : Timers T :=
  Timers.reset { s with map := TimerMap.insert t x s.map }

/-- Model of `Timers::wait_and_drain`: with no cached wake, suspend forever
(`none`).  Otherwise await the cached sleep (which completes once its
instant has elapsed — immediately if it already has) and drain the map up
to the **cached** instant.  The code does not recompute the cache here:
`next` is left pointing at the already-elapsed instant. -/
def Timers.wait_and_drain {T : Type} (s : Timers T) :
    Option (List (Nat × T) × Timers T) :=
  match s.next with
  | none => none
  | some instant =>
    let d := TimerMap.drain_until instant s.map
    some (d.1, { next := s.next, map := d.2 })

/-!
## Framing theorems
-/

/-- Evaluating the success path of `write_message`: below the size bound it
writes the big-endian length followed by the serialized bytes and leaves
exactly the serialized bytes in the scratch buffer. -/
theorem write_message_ok {M : Type} (max : Nat) (ser : M → List Nat) (m : M)
    (b : List Nat) (hlen : (ser m).length < max) :
    write_message max ser m b =
      { ok := true, written := u32be (ser m).length ++ ser m, buffer := ser m } := by
  unfold write_message toSlice bufResize bufClear
  rw [if_pos hlen]
  cases h : ser m with
  | nil => simp
  | cons x xs => simp

/-- Reading one well-formed frame followed by trailing bytes from an empty
scratch buffer returns exactly the payload and leaves the trailing bytes
unconsumed with an empty buffer. -/
theorem read_lp_frame (max : Nat) (p t : List Nat)
    (hle : p.length ≤ max) (hlt : p.length < 4294967296) :
    read_lp max (u32be p.length ++ (p ++ t)) [] = LpResult.ok (some p) [] t := by
  unfold read_lp
  rw [readU32_u32be _ _ hlt]
  have hmin : min p.length (p ++ t).length = p.length := by
    rw [List.length_append]; omega
  dsimp only
  rw [if_neg (by omega)]
  simp only [hmin, List.nil_append, List.take_left, List.drop_left]
  rw [if_pos (by simp)]
  simp

/-- C1: the claim states that a stream ending after one to three prefix
bytes (mid-prefix) makes `read_lp` return an error, never `None`.  The code
does the opposite: tokio's `read_u32` reports `UnexpectedEof` whether zero
or one-to-three bytes were available, and `read_lp` maps `UnexpectedEof` to
`Ok(None)`.  Evaluated at a stream holding exactly two prefix bytes and an
empty buffer, `read_lp` returns `Ok(None)` — the clean-end value, not an
error — contradicting the claim and the function's own doc comment. -/
theorem read_lp_midPrefixEof_returns_none :
    read_lp 4096 [0, 1] [] = LpResult.ok none [] [0, 1] := by rfl

/-- C9: the claim states `read_lp` always returns `Ok` or `Err` and that
the final `split_to` stays within the buffer.  On a stream whose prefix
declares 5 payload bytes but which ends after only 2, the accumulation loop
exits at end-of-data with a 2-byte buffer and `buffer.split_to(5)` panics
(`BytesMut::split_to` requires `at <= len`). -/
theorem read_lp_truncated_payload_panics :
    read_lp 4096 [0, 0, 0, 5, 1, 2] [] = LpResult.panicked := by rfl

/-- C2 counterexample: the claim states a declared length exactly equal to
`MAX_MESSAGE_SIZE` is rejected.  The code's guard is strict
(`size > MAX_MESSAGE_SIZE`): with the maximum instantiated at 2, a frame
declaring exactly 2 bytes is accepted and its payload returned, not an
error. -/
theorem read_lp_at_max_accepted :
    read_lp 2 [0, 0, 0, 2, 9, 8] [] = LpResult.ok (some [9, 8]) [] [] ∧
      (read_lp 2 [0, 0, 0, 2, 9, 8] []).isErr = false := by
  exact ⟨by rfl, by rfl⟩

/-- C2 (amended): `read_lp` bails — before consuming any payload byte, the
stream remainder and buffer untouched — exactly when the declared length is
strictly greater than `MAX_MESSAGE_SIZE`; a declared length less than or
equal to the maximum (in particular exactly equal) is never the `bail!`
outcome. -/
theorem read_lp_err_iff_oversize (max : Nat) (s b : List Nat) (size : Nat)
    (rest : List Nat) (h : readU32 s = some (size, rest)) :
    (max < size → read_lp max s b = LpResult.err b rest) ∧
      (size ≤ max → (read_lp max s b).isErr = false) := by
  unfold read_lp
  rw [h]
  dsimp only
  constructor
  · intro hlt
    rw [if_pos hlt]
  · intro hle
    rw [if_neg (by omega)]
    split
    · rfl
    · rfl

/-- C2 witness: a stream declaring 2 payload bytes against a maximum of 1
bails with buffer and remainder untouched. -/
theorem read_lp_err_iff_oversize_witness :
    readU32 [0, 0, 0, 2] = some (2, []) ∧ (1 : Nat) < 2 ∧
      read_lp 1 [0, 0, 0, 2] [] = LpResult.err [] [] :=
  ⟨by rfl, by omega,
    (read_lp_err_iff_oversize 1 [0, 0, 0, 2] [] 2 [] (by rfl)).1 (by omega)⟩

/-- Concrete single-byte codec used by witnesses: serialize a `Nat` as one
byte. -/
def natSer (n : Nat) : List Nat := [n % 256]

/-- Deserializer inverting `natSer` on single-byte payloads below 256. -/
def natDeser : List Nat → Option Nat
  | [b] => some b
  | _ => none

/-- Concrete size-controlled serializer used by counterexamples: a `Nat`
serializes to that many zero bytes. -/
def exSer (n : Nat) : List Nat := List.replicate n 0

/-- C6: a message whose serialized size is at or above the maximum makes
`write_message` fail with zero bytes written and the scratch buffer left
untouched (the `ensure!` runs before the buffer is cleared or any write is
issued). -/
theorem write_message_oversize_rejected {M : Type} (max : Nat)
    (ser : M → List Nat) (m : M) (b : List Nat) (h : max ≤ (ser m).length) :
    write_message max ser m b = { ok := false, written := [], buffer := b } := by
  unfold write_message
  dsimp only
  rw [if_neg (by omega)]

/-- C6 witness: with maximum 1 a five-byte message is rejected, nothing is
written, and the buffer keeps its prior content. -/
theorem write_message_oversize_rejected_witness :
    (1 : Nat) ≤ (exSer 5).length ∧
      write_message 1 exSer 5 [3] = { ok := false, written := [], buffer := [3] } :=
  ⟨by decide, write_message_oversize_rejected 1 exSer 5 [3] (by decide)⟩

/-- C5: for any message whose serialized size is under the maximum (and a
maximum fitting the 4-byte prefix), `write_message` followed by
`read_message` on exactly the bytes written returns the original message,
with empty buffer and fully consumed stream; `hcodec` is the round-trip of
the external postcard codec. -/
theorem write_read_round_trip {M : Type} (max : Nat) (ser : M → List Nat)
    (deser : List Nat → Option M) (m : M) (b : List Nat)
    (hlen : (ser m).length < max) (hmax : max ≤ 4294967296)
    (hcodec : deser (ser m) = some m) :
    read_message max deser (write_message max ser m b).written [] =
      MsgResult.ok (some m) [] [] := by
  rw [write_message_ok max ser m b hlen]
  dsimp only
  unfold read_message
  have hf := read_lp_frame max (ser m) [] hlen.le (by omega)
  rw [List.append_nil] at hf
  rw [hf]
  dsimp only
  rw [hcodec]

/-- C5 witness: the one-byte message 5 round-trips through
`write_message` / `read_message` at maximum 4096. -/
theorem write_read_round_trip_witness :
    (natSer 5).length < 4096 ∧ (4096 : Nat) ≤ 4294967296 ∧
      natDeser (natSer 5) = some 5 ∧
      read_message 4096 natDeser (write_message 4096 natSer 5 [3]).written [] =
        MsgResult.ok (some 5) [] [] :=
  ⟨by decide, by decide, by rfl,
    write_read_round_trip 4096 natSer natDeser 5 [3] (by decide) (by decide) (by rfl)⟩

/-- C8: two messages written back-to-back are read back in order by two
sequential `read_lp` calls: the first call returns exactly the first
payload, leaves the buffer empty, and consumes not a single byte of the
second frame; the second call returns the second payload. -/
theorem read_lp_pipelining {M : Type} (max : Nat) (ser : M → List Nat)
    (m1 m2 : M) (b1 b2 : List Nat)
    (h1 : (ser m1).length < max) (h2 : (ser m2).length < max)
    (hmax : max ≤ 4294967296) :
    read_lp max
        ((write_message max ser m1 b1).written ++ (write_message max ser m2 b2).written) [] =
        LpResult.ok (some (ser m1)) [] (write_message max ser m2 b2).written ∧
      read_lp max (write_message max ser m2 b2).written [] =
        LpResult.ok (some (ser m2)) [] [] := by
  rw [write_message_ok max ser m1 b1 h1, write_message_ok max ser m2 b2 h2]
  dsimp only
  constructor
  · have hf := read_lp_frame max (ser m1) (u32be (ser m2).length ++ ser m2)
      h1.le (by omega)
    rw [← List.append_assoc] at hf
    exact hf
  · have hf := read_lp_frame max (ser m2) [] h2.le (by omega)
    rw [List.append_nil] at hf
    exact hf

/-- C8 witness: the messages 5 and 6 written back-to-back are read back in
order with the frame boundary intact. -/
theorem read_lp_pipelining_witness :
    (natSer 5).length < 4096 ∧ (natSer 6).length < 4096 ∧
      (4096 : Nat) ≤ 4294967296 ∧
      (read_lp 4096
          ((write_message 4096 natSer 5 []).written ++ (write_message 4096 natSer 6 []).written) [] =
          LpResult.ok (some (natSer 5)) [] (write_message 4096 natSer 6 []).written ∧
        read_lp 4096 (write_message 4096 natSer 6 []).written [] =
          LpResult.ok (some (natSer 6)) [] []) :=
  ⟨by decide, by decide, by decide,
    read_lp_pipelining 4096 natSer 5 6 [] [] (by decide) (by decide) (by decide)⟩

/-- C10 counterexample: the claim quantifies over every message, but for a
message whose serialized size is at or above the maximum the `ensure!`
fires before the buffer is cleared, so the scratch buffer keeps its
caller-dependent prior content and the two runs do not end in identical
states. -/
theorem write_message_buffer_dependent_on_error :
    (write_message 1 exSer 5 []).buffer ≠ (write_message 1 exSer 5 [7]).buffer := by
  decide

/-- C10 (amended): the bytes written by `write_message` never depend on the
scratch buffer's prior content, and whenever the serialized size is under
the maximum the entire outcome — written bytes and final buffer state — is
identical across any two prior buffer contents (the buffer is cleared and
resized before encoding); only the rejected oversized call leaves the
buffer at its caller-supplied prior content. -/
theorem write_message_buffer_independent {M : Type} (max : Nat)
    (ser : M → List Nat) (m : M) (b1 b2 : List Nat) :
    (write_message max ser m b1).written = (write_message max ser m b2).written ∧
      ((ser m).length < max → write_message max ser m b1 = write_message max ser m b2) := by
  constructor
  · unfold write_message
    dsimp only
    by_cases h : (ser m).length < max
    · rw [if_pos h, if_pos h]
      simp only [bufClear]
    · rw [if_neg h, if_neg h]
  · intro h
    unfold write_message
    dsimp only
    rw [if_pos h, if_pos h]
    simp only [bufClear]

/-- C10 witness: for the in-bounds message 5 the scratch buffers `[]` and
`[9]` lead to identical results. -/
theorem write_message_buffer_independent_witness :
    (natSer 5).length < 4096 ∧
      write_message 4096 natSer 5 [] = write_message 4096 natSer 5 [9] :=
  ⟨by decide, (write_message_buffer_independent 4096 natSer 5 [] [9]).2 (by decide)⟩

/-!
## Dialer theorems
-/

/-- Number of `pending_peers` entries recorded under peer `p`. -/
def countKey (p : Nat) (l : List (Nat × Nat)) : Nat :=
  l.countP (fun e => e.1 == p)

/-- Number of in-flight attempts targeting peer `p`. -/
def attemptsFor (p : Nat) (l : List Attempt) : Nat :=
  l.countP (fun a => a.peer == p)

/-- An absent `pending_peers` key has count zero. -/
theorem countKey_eq_zero_of_lookupKey_none (p : Nat) (l : List (Nat × Nat))
    (h : lookupKey p l = none) : countKey p l = 0 := by
  induction l with
  | nil => rfl
  | cons e es ih =>
    unfold lookupKey at h
    by_cases hb : e.1 = p
    · simp [hb] at h
    · simp only [countKey, List.countP_cons] at *
      rw [ih (by simpa [hb] using h)]
      simp [hb]

/-- C4: the claim states that after the stale (cancelled) attempt's
completion is drained, the peer's fresh attempt still has a pending-set
entry.  Executing `queue_dial 0`, `abort_dial 0`, `queue_dial 0`, and then
`next` with the stale cancelled attempt completing first (it resolves
immediately), `next` removes the pending entry keyed by peer id alone: the
*fresh* attempt's entry is deleted, `is_pending 0` is `false`, while the
fresh attempt itself is still in the attempt set (length 1). -/
theorem dialer_stale_completion_clears_fresh :
    (Dialer.next (Dialer.queue_dial 0 7 (Dialer.abort_dial 0 (Dialer.queue_dial 0 7 Dialer.new))) 0).map
        (fun r => (Dialer.is_pending 0 r.2, r.2.pending.length)) = some (false, 1) := by
  rfl

/-- C7: queueing a dial for a peer that is already pending is a no-op — in
particular a second `queue_dial` right after a first one changes nothing —
and from a state without an entry or attempt for `p` a `queue_dial` leaves
exactly one pending entry and exactly one in-flight attempt for `p`, so
exactly one completion for `p` is eventually surfaced by `next`. -/
theorem queue_dial_dedup (s : Dialer) (p a1 a2 : Nat) :
    Dialer.queue_dial p a2 (Dialer.queue_dial p a1 s) = Dialer.queue_dial p a1 s ∧
      (Dialer.is_pending p s = false →
        countKey p (Dialer.queue_dial p a1 s).pending_peers = 1 ∧
          attemptsFor p (Dialer.queue_dial p a1 s).pending =
            attemptsFor p s.pending + 1) := by
  constructor
  · by_cases hp : s.is_pending p
    · simp [Dialer.queue_dial, hp]
    · have h1 : Dialer.queue_dial p a1 s =
          { pending := s.pending ++ [{ peer := p, alpn := a1, token := s.nextToken, cancelled := false }]
            pending_peers := (p, s.nextToken) :: s.pending_peers
            nextToken := s.nextToken + 1 } := by
        simp [Dialer.queue_dial, hp]
      rw [h1]
      simp [Dialer.queue_dial, Dialer.is_pending, lookupKey]
  · intro hp
    have h1 : Dialer.queue_dial p a1 s =
        { pending := s.pending ++ [{ peer := p, alpn := a1, token := s.nextToken, cancelled := false }]
          pending_peers := (p, s.nextToken) :: s.pending_peers
          nextToken := s.nextToken + 1 } := by
      simp [Dialer.queue_dial, hp]
    rw [h1]
    have h0 : lookupKey p s.pending_peers = none := by
      have := hp
      unfold Dialer.is_pending at this
      cases hl : lookupKey p s.pending_peers with
      | none => rfl
      | some v => rw [hl] at this; simp at this
    constructor
    · simp only [countKey, List.countP_cons]
      have := countKey_eq_zero_of_lookupKey_none p s.pending_peers h0
      simp only [countKey] at this
      simp [this]
    · simp [attemptsFor, List.countP_append]

/-- C7 witness: from the empty dialer, queueing peer 3 twice equals
queueing it once, which records exactly one pending entry and one in-flight
attempt for peer 3. -/
theorem queue_dial_dedup_witness :
    Dialer.queue_dial 3 7 (Dialer.queue_dial 3 7 Dialer.new) = Dialer.queue_dial 3 7 Dialer.new ∧
      (Dialer.is_pending 3 Dialer.new = false ∧
        countKey 3 (Dialer.queue_dial 3 7 Dialer.new).pending_peers = 1 ∧
          attemptsFor 3 (Dialer.queue_dial 3 7 Dialer.new).pending =
            attemptsFor 3 Dialer.new.pending + 1) :=
  ⟨(queue_dial_dedup Dialer.new 3 7 7).1,
    by decide, (queue_dial_dedup Dialer.new 3 7 7).2 (by decide)⟩

/-!
## Timers theorems
-/

/-- Concrete `Timers` instance with deadlines 1 < 2 < 3 carrying payloads
10, 20, 30. -/
def timersEx : Timers Nat :=
  Timers.insert 3 30 (Timers.insert 2 20 (Timers.insert 1 10 Timers.new))

/-- C3 counterexample: the claim states that a second `wait_and_drain`
with no intervening insert returns the later two entries.  The code never
recomputes the cached wake inside `wait_and_drain`: the cache still holds
the first (already elapsed) deadline, so the second call resumes
immediately and drains nothing — an empty batch, not the `t2` and `t3`
entries. -/
theorem timers_second_drain_empty :
    (Timers.wait_and_drain timersEx).map (fun r => r.1) = some [(1, 10)] ∧
      ((Timers.wait_and_drain timersEx).bind
          (fun r => (Timers.wait_and_drain r.2).map (fun r2 => r2.1))) = some [] := by
  exact ⟨by rfl, by rfl⟩

/-- C3 (amended): with deadlines `t1 < t2 < t3` each inserted once, the
first `wait_and_drain` returns exactly the `t1` entry; a second call with
no recompute returns an empty batch immediately (the cached wake still
holds `t1`); and because each drain is bounded by the cached earliest
deadline — not by how much time has elapsed — recomputing with `reset`
and draining returns exactly the `t2` entry, and one more `reset` plus
drain returns exactly the `t3` entry: the two remaining entries are
surfaced one at a time, never together. -/
theorem timers_drain_sequence {T : Type} (t1 t2 t3 : Nat) (x1 x2 x3 : T)
    (h12 : t1 < t2) (h23 : t2 < t3) :
    Timers.wait_and_drain
        (Timers.insert t3 x3 (Timers.insert t2 x2 (Timers.insert t1 x1 Timers.new))) =
        some ([(t1, x1)], { next := some t1, map := [(t2, x2), (t3, x3)] }) ∧
      Timers.wait_and_drain { next := some t1, map := [(t2, x2), (t3, x3)] } =
        some ([], { next := some t1, map := [(t2, x2), (t3, x3)] }) ∧
      Timers.wait_and_drain (Timers.reset { next := some t1, map := [(t2, x2), (t3, x3)] }) =
        some ([(t2, x2)], { next := some t2, map := [(t3, x3)] }) ∧
      Timers.wait_and_drain (Timers.reset { next := some t2, map := [(t3, x3)] }) =
        some ([(t3, x3)], { next := some t3, map := [] }) := by
  have h21 : ¬ t2 < t1 := by omega
  have h31 : ¬ t3 < t1 := by omega
  have h32 : ¬ t3 < t2 := by omega
  have h21' : ¬ t2 ≤ t1 := by omega
  have h31' : ¬ t3 ≤ t1 := by omega
  have h32' : ¬ t3 ≤ t2 := by omega
  refine ⟨?_, ?_, ?_, ?_⟩
  · simp [Timers.insert, Timers.reset, Timers.new, Timers.wait_and_drain,
      TimerMap.insert, TimerMap.first, TimerMap.drain_until,
      h21, h31, h32, h21', h31']
  · simp [Timers.wait_and_drain, TimerMap.drain_until, h21', h31']
  · simp [Timers.reset, Timers.wait_and_drain, TimerMap.first,
      TimerMap.drain_until, h32']
  · simp [Timers.reset, Timers.wait_and_drain, TimerMap.first,
      TimerMap.drain_until]

/-- C3 witness: the sequence evaluated at deadlines 1 < 2 < 3 with
payloads 10, 20, 30. -/
theorem timers_drain_sequence_witness :
    (1 : Nat) < 2 ∧ (2 : Nat) < 3 ∧
      (Timers.wait_and_drain
          (Timers.insert 3 (30 : Nat) (Timers.insert 2 20 (Timers.insert 1 10 Timers.new))) =
          some ([(1, 10)], { next := some 1, map := [(2, 20), (3, 30)] }) ∧
        Timers.wait_and_drain { next := some 1, map := [(2, 20), (3, 30)] } =
          some ([], { next := some 1, map := [(2, 20), (3, 30)] }) ∧
        Timers.wait_and_drain (Timers.reset { next := some 1, map := [(2, 20), (3, 30)] }) =
          some ([(2, 20)], { next := some 2, map := [(3, 30)] }) ∧
        Timers.wait_and_drain (Timers.reset { next := some 2, map := [(3, 30)] }) =
          some ([(3, 30)], { next := some 3, map := [] })) :=
  ⟨by omega, by omega, timers_drain_sequence 1 2 3 10 20 30 (by omega) (by omega)⟩
